import Mathlib

/-!
Verification of the binary parsing core of `string_table_tools.py` (UE asset
string-table tools).  The Python code is shallowly embedded: byte buffers are
`List Nat` (each entry a byte value), the mutable read cursor of `AssetReader`
is an explicit `Int` (Python integers may go negative through `skip(-4)`), and
every fallible operation returns `Except PErr`.  Python's clamping slice
semantics (`data[a:b]`) and the `struct.unpack` exact-size requirement are
modelled faithfully, as are the `ascii` and `utf-16` codecs used by
`read_string` (including BOM handling and surrogate pairs of the `utf-16`
decoder, which defaults to little-endian byte order on the platforms the tool
runs on).
-/

/-- Error kinds raised by the parsing core.  `structError` is the
`struct.error` raised by `struct.unpack` when the sliced byte string is
shorter than requested (the spec's `BufferUnderrun`); `decodeError` is a
`UnicodeDecodeError` from `bytes.decode`; the remaining constructors are the
explicitly raised exceptions, keyed by their message ("Not a valid .uasset
file" = the spec's `NotAContainerFile`, "String not null terminated" = the
spec's `EncodingError`, "Not a suitable string table" = `UnsupportedAssetType`,
"Asset code mismatch" = `GuidMismatch`).  Both public entry points wrap any
escaping exception in `AssetParseException`, preserving the cause; the wrapper
is not given a separate constructor since it carries exactly the inner kind. -/
inductive PErr where
  | structError
  | notAContainer
  | decodeError
  | stringNotTerminated
  | notAStringTable
  | assetCodeMismatch
  deriving Repr, DecidableEq

/-- The string encodings `read_string` selects between. -/
inductive PyEncoding where
  | ascii
  | utf16
  deriving Repr, DecidableEq

/-- `AssetReader` state: the immutable byte buffer plus the mutable cursor
(`__data` and `__cursor` in the source). -/
structure RState where
  data : List Nat
  cursor : Int
  deriving Repr, DecidableEq

/-- `AssetReader.Meta`: the header summary record built by `get_asset_meta`.
(The spec calls `ue_version` "engine_version"; the source attribute name is
kept.) -/
structure Meta where
  file_version : Int
  license_version : Nat
  ue_version : Nat
  cook_version : Nat
  asset_type : Nat
  data_offset : Nat
  path : List Nat
  asset_guid : List Nat
  deriving Repr, DecidableEq

/-- Effective index of a Python slice bound `i` for a sequence of length
`len`: negative indices count from the end, everything is clamped to
`[0, len]`. -/
def pyIndex (len : Nat) (i : Int) : Nat :=
  if i < 0 then ((len : Int) + i).toNat else min len i.toNat

/-- Python slice `data[start:stop]` with its clamping semantics. -/
def pySlice (data : List Nat) (start stop : Int) : List Nat :=
  (data.take (pyIndex data.length stop)).drop (pyIndex data.length start)

/-- Value of 4 bytes in little-endian order, as read by
`struct.unpack("I", ·)`. -/
def leU32 : List Nat → Nat
  | [b0, b1, b2, b3] => b0 + 256 * b1 + 65536 * b2 + 16777216 * b3
  | _ => 0

/-- Reinterpret an unsigned 32-bit value as signed (two's complement), as
`struct.unpack("i", ·)` does. -/
def toSigned32 (n : Nat) : Int :=
  if n < 2 ^ 31 then (n : Int) else (n : Int) - 2 ^ 32

/-- The 4 little-endian bytes of an unsigned 32-bit value
(`struct.pack("I", ·)`). -/
def encU32 (x : Nat) : List Nat :=
  [x % 256, x / 256 % 256, x / 65536 % 256, x / 16777216 % 256]

/-- The 4 little-endian bytes of a signed 32-bit value (`struct.pack("i", ·)`,
two's complement): the value is reduced modulo `2 ^ 32 = 4294967296`. -/
def encI32 (x : Int) : List Nat :=
  encU32 (x % 4294967296).toNat

/-- Python's `ascii` codec on decode: every byte must be below 128; the code
points are the byte values. -/
def asciiDecode (bs : List Nat) : Option (List Nat) :=
  if ∀ b ∈ bs, b < 128 then some bs else none

/-- Pair up bytes into 16-bit code units, little-endian; an odd trailing byte
is a decode error (`utf-16` strict mode). -/
def utf16Pairs : List Nat → Option (List Nat)
  | [] => some []
  | [_] => none
  | b0 :: b1 :: rest => (utf16Pairs rest).map (fun us => (b0 + 256 * b1) :: us)

/-- Pair up bytes into 16-bit code units, big-endian. -/
def utf16PairsBE : List Nat → Option (List Nat)
  | [] => some []
  | [_] => none
  | b0 :: b1 :: rest => (utf16PairsBE rest).map (fun us => (256 * b0 + b1) :: us)

/-- Combine UTF-16 code units into code points: a high surrogate must be
followed by a low surrogate (combined into a supplementary code point); a lone
surrogate is a decode error (`utf-16` strict mode). -/
def unitsToCps : List Nat → Option (List Nat)
  | [] => some []
  | u :: rest =>
    if 55296 ≤ u ∧ u < 56320 then
      match rest with
      | [] => none
      | v :: rest2 =>
        if 56320 ≤ v ∧ v < 57344 then
          match unitsToCps rest2 with
          | none => none
          | some cs => some ((65536 + (u - 55296) * 1024 + (v - 56320)) :: cs)
        else none
    else if 56320 ≤ u ∧ u < 57344 then none
    else
      match unitsToCps rest with
      | none => none
      | some cs => some (u :: cs)

/-- Python's `utf-16` codec on decode: an initial BOM selects the byte order
and is stripped; without a BOM the platform's native (little-endian) order is
used. -/
def utf16Decode : List Nat → Option (List Nat)
  | 255 :: 254 :: rest =>
    match utf16Pairs rest with
    | none => none
    | some us => unitsToCps us
  | 254 :: 255 :: rest =>
    match utf16PairsBE rest with
    | none => none
    | some us => unitsToCps us
  | bs =>
    match utf16Pairs bs with
    | none => none
    | some us => unitsToCps us

/-- `bytes.decode(encoding)` for the two encodings `read_string` uses. -/
def decodeWith : PyEncoding → List Nat → Option (List Nat)
  | .ascii, bs => asciiDecode bs
  | .utf16, bs => utf16Decode bs

/-- `AssetReader.read_uint`: slice 4 bytes at the cursor (`struct.unpack`
demands exactly 4), decode little-endian unsigned, advance the cursor by 4. -/
def read_uint (s : RState) : Except PErr (Nat × RState) :=
  let bs := pySlice s.data s.cursor (s.cursor + 4)
  if bs.length = 4 then .ok (leU32 bs, ⟨s.data, s.cursor + 4⟩)
  else .error .structError

/-- `AssetReader.read_int`: as `read_uint` but the value is reinterpreted as a
signed 32-bit integer. -/
def read_int (s : RState) : Except PErr (Int × RState) :=
  let bs := pySlice s.data s.cursor (s.cursor + 4)
  if bs.length = 4 then .ok (toSigned32 (leU32 bs), ⟨s.data, s.cursor + 4⟩)
  else .error .structError

/-- `AssetReader.skip`: adjust the cursor by `count` (may be negative). -/
def skip (s : RState) (count : Int) : RState :=
  ⟨s.data, s.cursor + count⟩

/-- `AssetReader.reset`: set the cursor absolutely (default 0 at call sites
that pass no argument). -/
def reset (s : RState) (position : Int) : RState :=
  ⟨s.data, position⟩

/-- `AssetReader.read_string`: read a signed 32-bit length prefix; a negative
prefix `-n` means `n` UTF-16 code units (`2 * n` bytes), a non-negative prefix
means that many single-byte (`ascii`) characters.  The slice must have exactly
that many bytes (`struct.unpack("%ds" % count, ·)`), the decoded text must end
with a NUL, which is stripped, and the cursor advances by the consumed byte
count. -/
def read_string (s : RState) : Except PErr (List Nat × RState) :=
  match read_int s with
  | .error e => .error e
  | .ok (c, s1) =>
    let count : Nat := if c < 0 then (-c).toNat * 2 else c.toNat
    let enc : PyEncoding := if c < 0 then .utf16 else .ascii
    let bs := pySlice s1.data s1.cursor (s1.cursor + (count : Int))
    if bs.length = count then
      match decodeWith enc bs with
      | none => .error .decodeError
      | some value =>
        if value.getLast? = some 0 then
          .ok (value.dropLast, ⟨s1.data, s1.cursor + (count : Int)⟩)
        else .error .stringNotTerminated
    else .error .structError

/-- Scan helper for `bytes.find`: first index `i' ≥ i` at which `pat` occurs
in the remaining suffix `l`, else the sentinel `-1`. -/
def findAux (pat : List Nat) : List Nat → Nat → Int
  | l, i =>
    if pat.isPrefixOf l then (i : Int)
    else
      match l with
      | [] => -1
      | _ :: t => findAux pat t (i + 1)

/-- Effective start index of Python's `bytes.find(pat, start)`: negative
starts count from the end (clamped at 0). -/
def pyStart (len : Nat) (i : Int) : Nat :=
  if i < 0 then ((len : Int) + i).toNat else i.toNat

/-- `AssetReader.find_int`: forward search from the cursor for the 4
little-endian bytes of `value`; absolute offset of the first match, or `-1`. -/
def find_int (s : RState) (value : Int) : Int :=
  let pat := encI32 value
  let start := pyStart s.data.length s.cursor
  findAux pat (s.data.drop start) start

/-- `AssetReader.validate`: read the magic number at the cursor, fail with
`ValueError("Not a valid .uasset file")` unless it is `0x9E2A83C1`, then
reset the cursor to 0. -/
def validate (s : RState) : Except PErr RState :=
  match read_uint s with
  | .error e => .error e
  | .ok (magic_number, s1) =>
    if magic_number ≠ 0x9E2A83C1 then .error .notAContainer
    else .ok (reset s1 0)

/-- The `cook_version` step of `get_asset_meta`: read an unsigned value; if it
is zero and `file_version` is not `-8`, rewind 4 bytes (the value read belongs
to the next field in that layout). -/
def cookStage (file_version : Int) (s : RState) : Except PErr (Nat × RState) :=
  match read_uint s with
  | .error e => .error e
  | .ok (cook_version, s1) =>
    if cook_version = 0 ∧ file_version ≠ -8 then .ok (cook_version, skip s1 (-4))
    else .ok (cook_version, s1)

/-- The anchor step of `get_asset_meta`: `self.reset(self.find_int(40) + 4)`. -/
def anchorStage (s : RState) : RState :=
  reset s (find_int s 40 + 4)

/-- The probe step of `get_asset_meta`: read a signed value; if it is zero,
skip 4 further bytes, otherwise rewind the 4 bytes just read. -/
def probeStage (s : RState) : Except PErr RState :=
  match read_int s with
  | .error e => .error e
  | .ok (v, s1) => if v = 0 then .ok (skip s1 4) else .ok (skip s1 (-4))

/-- `AssetReader.get_asset_meta`, step for step: skip the magic, read
`file_version`/`license_version`/`ue_version`, the conditional `cook_version`
read, a 4-byte skip, `asset_type`, the anchor search for the literal 40,
`data_offset`, `path`, a 12-byte skip, the conditional probe, `asset_guid`,
and a final reset to offset 0. -/
def get_asset_meta (s0 : RState) : Except PErr (Meta × RState) :=
  match read_int (skip s0 4) with
  | .error e => .error e
  | .ok (file_version, s) =>
  match read_uint s with
  | .error e => .error e
  | .ok (license_version, s) =>
  match read_uint s with
  | .error e => .error e
  | .ok (ue_version, s) =>
  match cookStage file_version s with
  | .error e => .error e
  | .ok (cook_version, s) =>
  match read_uint (skip s 4) with
  | .error e => .error e
  | .ok (asset_type, s) =>
  match read_uint (anchorStage s) with
  | .error e => .error e
  | .ok (data_offset, s) =>
  match read_string s with
  | .error e => .error e
  | .ok (path, s) =>
  match probeStage (skip s 12) with
  | .error e => .error e
  | .ok s =>
  match read_string s with
  | .error e => .error e
  | .ok (asset_guid, s) =>
    .ok (⟨file_version, license_version, ue_version, cook_version, asset_type,
          data_offset, path, asset_guid⟩, reset s 0)

/-- `parse_meta`: validate then read the header; any exception is re-raised
wrapped in `AssetParseException`, preserving the failing kind. -/
def parse_meta (data : List Nat) : Except PErr Meta :=
  match validate ⟨data, 0⟩ with
  | .error e => .error e
  | .ok s =>
    match get_asset_meta s with
    | .error e => .error e
    | .ok (m, _) => .ok m

/-- The entry-reading loop of `parse_string_table`
(`for _ in range(count): key = read_string(); value = read_string()`),
with the iteration count already taken as a natural number (Python's
`range(count)` runs `max count 0` times). -/
def readPairs (s : RState) : Nat → Except PErr (List (List Nat × List Nat) × RState)
  | 0 => .ok ([], s)
  | n + 1 =>
    match read_string s with
    | .error e => .error e
    | .ok (key, s1) =>
      match read_string s1 with
      | .error e => .error e
      | .ok (value, s2) =>
        match readPairs s2 n with
        | .error e => .error e
        | .ok (rest, s3) => .ok ((key, value) :: rest, s3)

/-- Everything `parse_string_table` does before its entry loop: validate,
resolve the header, require `asset_type == 1`, seek to `data_offset`, skip 28
bytes, read and compare the payload GUID against `Meta.asset_guid`, skip 12
bytes, read and discard the table name, and read the declared entry count
(still a signed value at this point). -/
def tableHeader (data : List Nat) : Except PErr (Int × RState) :=
  match validate ⟨data, 0⟩ with
  | .error e => .error e
  | .ok s =>
  match get_asset_meta s with
  | .error e => .error e
  | .ok (meta, s) =>
  if meta.asset_type ≠ 1 then .error .notAStringTable
  else
  match read_string (skip (reset s (meta.data_offset : Int)) 28) with
  | .error e => .error e
  | .ok (asset_guid, s) =>
  if asset_guid ≠ meta.asset_guid then .error .assetCodeMismatch
  else
  match read_string (skip s 12) with
  | .error e => .error e
  | .ok (_, s) =>
  match read_int s with
  | .error e => .error e
  | .ok (count, s) => .ok (count, s)

/-- `parse_string_table`: the header part followed by the entry loop; errors
are wrapped in `AssetParseException`, preserving the failing kind, and no
partial list escapes. -/
def parse_string_table (data : List Nat) :
    Except PErr (List (List Nat × List Nat)) :=
  match tableHeader data with
  | .error e => .error e
  | .ok (count, s) =>
    match readPairs s count.toNat with
    | .error e => .error e
    | .ok (out, _) => .ok out

set_option maxRecDepth 100000

/-- Modelled from the spec: the test buffer builder's encoding of a
length-prefixed, NUL-terminated single-byte string (§8 "round-trip through a
test buffer builder"; §6: non-negative length prefix ⇒ that many single-byte
characters, NUL-terminated). -/
def encStrA (str : List Nat) : List Nat :=
  encU32 (str.length + 1) ++ (str ++ [0])

lemma encU32_length (x : Nat) : (encU32 x).length = 4 := rfl

lemma encI32_length (x : Int) : (encI32 x).length = 4 := rfl

lemma encStrA_length (str : List Nat) : (encStrA str).length = str.length + 5 := by
  simp [encStrA, encU32]

lemma drop_chain {data A B : List Nat} {p n r : Nat}
    (hd : data.drop p = A ++ B) (hA : A.length = n) (hr : p + n = r) :
    data.drop r = B := by
  subst hr
  have h1 : data.drop (p + n) = (data.drop p).drop n := (List.drop_drop n p data).symm
  rw [h1, hd, ← hA, List.drop_left]

lemma take_of_drop_eq {data A B : List Nat} {p n : Nat}
    (hd : data.drop p = A ++ B) (hA : A.length = n) :
    (data.drop p).take n = A := by
  rw [hd, ← hA, List.take_left]

lemma length_ge_of_drop_eq {data A B : List Nat} {p : Nat}
    (hd : data.drop p = A ++ B) (hA : 0 < A.length) : p + A.length ≤ data.length := by
  have h := congrArg List.length hd
  rw [List.length_drop, List.length_append] at h
  omega

lemma length_eq_of_drop_eq {data A : List Nat} {p : Nat}
    (hd : data.drop p = A) (hp : p ≤ data.length) : data.length = p + A.length := by
  have h := congrArg List.length hd
  rw [List.length_drop] at h
  omega

lemma leU32_encU32 {x : Nat} (hx : x < 2 ^ 32) : leU32 (encU32 x) = x := by
  simp only [encU32, leU32]
  omega

lemma toSigned32_emod {x : Int} (h1 : -(2 : Int) ^ 31 ≤ x) (h2 : x < 2 ^ 31) :
    toSigned32 ((x % 4294967296).toNat) = x := by
  unfold toSigned32
  split <;> omega

lemma encI32_ofNat {n : Nat} (h : n < 2 ^ 32) : encI32 (n : Int) = encU32 n := by
  unfold encI32
  congr 1
  omega

lemma pySlice_nat (data : List Nat) (p n : Nat) (h : p + n ≤ data.length) :
    pySlice data (p : Int) ((p : Int) + (n : Int)) = (data.drop p).take n := by
  have hpn : (p : Int) + (n : Int) = ((p + n : Nat) : Int) := by push_cast; ring
  rw [hpn]
  unfold pySlice pyIndex
  rw [if_neg (by omega), if_neg (by omega)]
  simp only [Int.toNat_natCast]
  rw [Nat.min_eq_right h, Nat.min_eq_right (by omega), List.drop_take]
  congr 1
  omega

lemma read_uint_at {data : List Nat} {q : Int} {p x : Nat} {rest : List Nat}
    (hq : q = (p : Int)) (hx : x < 2 ^ 32) (hd : data.drop p = encU32 x ++ rest) :
    read_uint ⟨data, q⟩ = .ok (x, ⟨data, ((p + 4 : Nat) : Int)⟩) := by
  have hlen : p + 4 ≤ data.length := by
    have h := length_ge_of_drop_eq hd (by rw [encU32_length]; omega)
    rw [encU32_length] at h
    exact h
  have h4 : q + 4 = (p : Int) + ((4 : Nat) : Int) := by rw [hq]; norm_num
  have hsl : pySlice data q (q + 4) = encU32 x := by
    rw [hq] at h4 ⊢
    rw [h4, pySlice_nat data p 4 hlen, take_of_drop_eq hd (encU32_length x)]
  have hcur : q + 4 = ((p + 4 : Nat) : Int) := by rw [hq]; push_cast; ring
  unfold read_uint
  rw [hq] at hsl hcur ⊢
  rw [hsl, if_pos (encU32_length x), leU32_encU32 hx, hcur]

lemma read_int_at {data : List Nat} {q : Int} {p : Nat} {x : Int} {rest : List Nat}
    (hq : q = (p : Int)) (h1 : -(2 : Int) ^ 31 ≤ x) (h2 : x < 2 ^ 31)
    (hd : data.drop p = encI32 x ++ rest) :
    read_int ⟨data, q⟩ = .ok (x, ⟨data, ((p + 4 : Nat) : Int)⟩) := by
  have hlen : p + 4 ≤ data.length := by
    have h := length_ge_of_drop_eq hd (by rw [encI32_length]; omega)
    rw [encI32_length] at h
    exact h
  have h4 : q + 4 = (p : Int) + ((4 : Nat) : Int) := by rw [hq]; norm_num
  have hsl : pySlice data q (q + 4) = encI32 x := by
    rw [hq] at h4 ⊢
    rw [h4, pySlice_nat data p 4 hlen, take_of_drop_eq hd (encI32_length x)]
  have hval : toSigned32 (leU32 (encI32 x)) = x := by
    unfold encI32
    rw [leU32_encU32 (by omega)]
    exact toSigned32_emod h1 h2
  have hcur : q + 4 = ((p + 4 : Nat) : Int) := by rw [hq]; push_cast; ring
  unfold read_int
  rw [hq] at hsl hcur ⊢
  rw [hsl, if_pos (encI32_length x), hval, hcur]

lemma read_uint_state {s : RState} {v : Nat} {s' : RState}
    (h : read_uint s = .ok (v, s')) : s' = ⟨s.data, s.cursor + 4⟩ := by
  simp only [read_uint] at h
  split at h
  · simp only [Except.ok.injEq, Prod.mk.injEq] at h
    exact h.2.symm
  · simp at h

lemma read_int_state {s : RState} {v : Int} {s' : RState}
    (h : read_int s = .ok (v, s')) : s' = ⟨s.data, s.cursor + 4⟩ := by
  simp only [read_int] at h
  split at h
  · simp only [Except.ok.injEq, Prod.mk.injEq] at h
    exact h.2.symm
  · simp at h

lemma read_string_state {s : RState} {v : List Nat} {s' : RState}
    (h : read_string s = .ok (v, s')) : s'.data = s.data := by
  unfold read_string at h
  cases h1 : read_int s with
  | error e => rw [h1] at h; simp at h
  | ok r =>
    obtain ⟨c, s1⟩ := r
    rw [h1] at h
    dsimp only at h
    have hs1 : s1 = ⟨s.data, s.cursor + 4⟩ := read_int_state h1
    repeat (any_goals split at h)
    all_goals first
      | (simp at h; done)
      | (simp only [Except.ok.injEq, Prod.mk.injEq] at h
         obtain ⟨hv, hs⟩ := h
         rw [← hs, hs1])

lemma validate_state {s : RState} {s' : RState}
    (h : validate s = .ok s') : s' = ⟨s.data, 0⟩ := by
  unfold validate at h
  cases h1 : read_uint s with
  | error e => rw [h1] at h; simp at h
  | ok r =>
    obtain ⟨v, s1⟩ := r
    rw [h1] at h
    dsimp only at h
    split at h
    · simp at h
    · simp only [Except.ok.injEq] at h
      have hs1 : s1 = ⟨s.data, s.cursor + 4⟩ := read_uint_state h1
      rw [← h, hs1]
      rfl

lemma cookStage_state {fv : Int} {s : RState} {v : Nat} {s' : RState}
    (h : cookStage fv s = .ok (v, s')) : s'.data = s.data := by
  unfold cookStage at h
  cases h1 : read_uint s with
  | error e => rw [h1] at h; simp at h
  | ok r =>
    obtain ⟨c, s1⟩ := r
    rw [h1] at h
    dsimp only at h
    have hs1 : s1 = ⟨s.data, s.cursor + 4⟩ := read_uint_state h1
    split at h <;>
      (simp only [Except.ok.injEq, Prod.mk.injEq] at h; simp [← h.2, hs1, skip])

lemma probeStage_state {s : RState} {s' : RState}
    (h : probeStage s = .ok s') : s'.data = s.data := by
  unfold probeStage at h
  cases h1 : read_int s with
  | error e => rw [h1] at h; simp at h
  | ok r =>
    obtain ⟨v, s1⟩ := r
    rw [h1] at h
    dsimp only at h
    have hs1 : s1 = ⟨s.data, s.cursor + 4⟩ := read_int_state h1
    split at h <;>
      (simp only [Except.ok.injEq] at h; simp [← h, hs1, skip])

lemma get_asset_meta_state {s0 : RState} {m : Meta} {sf : RState}
    (h : get_asset_meta s0 = .ok (m, sf)) : sf = ⟨s0.data, 0⟩ := by
  unfold get_asset_meta at h
  cases h1 : read_int (skip s0 4) with
  | error e => rw [h1] at h; simp at h
  | ok r =>
  obtain ⟨fv, s1⟩ := r
  rw [h1] at h; dsimp only at h
  cases h2 : read_uint s1 with
  | error e => rw [h2] at h; simp at h
  | ok r =>
  obtain ⟨lic, s2⟩ := r
  rw [h2] at h; dsimp only at h
  cases h3 : read_uint s2 with
  | error e => rw [h3] at h; simp at h
  | ok r =>
  obtain ⟨ue, s3⟩ := r
  rw [h3] at h; dsimp only at h
  cases h4 : cookStage fv s3 with
  | error e => rw [h4] at h; simp at h
  | ok r =>
  obtain ⟨cook, s4⟩ := r
  rw [h4] at h; dsimp only at h
  cases h5 : read_uint (skip s4 4) with
  | error e => rw [h5] at h; simp at h
  | ok r =>
  obtain ⟨atype, s5⟩ := r
  rw [h5] at h; dsimp only at h
  cases h6 : read_uint (anchorStage s5) with
  | error e => rw [h6] at h; simp at h
  | ok r =>
  obtain ⟨doff, s6⟩ := r
  rw [h6] at h; dsimp only at h
  cases h7 : read_string s6 with
  | error e => rw [h7] at h; simp at h
  | ok r =>
  obtain ⟨path, s7⟩ := r
  rw [h7] at h; dsimp only at h
  cases h8 : probeStage (skip s7 12) with
  | error e => rw [h8] at h; simp at h
  | ok s8 =>
  rw [h8] at h; dsimp only at h
  cases h9 : read_string s8 with
  | error e => rw [h9] at h; simp at h
  | ok r =>
  obtain ⟨guid, s9⟩ := r
  rw [h9] at h; dsimp only at h
  simp only [Except.ok.injEq, Prod.mk.injEq] at h
  have hd1 : s1.data = s0.data := by rw [read_int_state h1]; rfl
  have hd2 : s2.data = s1.data := by rw [read_uint_state h2]
  have hd3 : s3.data = s2.data := by rw [read_uint_state h3]
  have hd4 : s4.data = s3.data := cookStage_state h4
  have hd5 : s5.data = s4.data := by rw [read_uint_state h5]; rfl
  have hd6 : s6.data = s5.data := by rw [read_uint_state h6]; rfl
  have hd7 : s7.data = s6.data := read_string_state h7
  have hd8 : s8.data = s7.data := by rw [probeStage_state h8]; rfl
  have hd9 : s9.data = s8.data := read_string_state h9
  rw [← h.2]
  show (⟨s9.data, 0⟩ : RState) = ⟨s0.data, 0⟩
  rw [hd9, hd8, hd7, hd6, hd5, hd4, hd3, hd2, hd1]

lemma read_string_at_ascii {data : List Nat} {q : Int} {p : Nat} {str rest : List Nat}
    (hq : q = (p : Int)) (ha : ∀ b ∈ str, b < 128) (hl : str.length + 1 < 2 ^ 31)
    (hd : data.drop p = encStrA str ++ rest) :
    read_string ⟨data, q⟩ = .ok (str, ⟨data, ((p + 5 + str.length : Nat) : Int)⟩) := by
  have hd1 : data.drop p = encI32 ((str.length + 1 : Nat) : Int) ++ ((str ++ [0]) ++ rest) := by
    rw [hd, encI32_ofNat (by omega)]
    simp [encStrA]
  have hri : read_int ⟨data, q⟩ =
      .ok (((str.length + 1 : Nat) : Int), ⟨data, ((p + 4 : Nat) : Int)⟩) :=
    read_int_at hq (by omega) (by push_cast; omega) hd1
  have hd4 : data.drop (p + 4) = (str ++ [0]) ++ rest :=
    drop_chain hd1 (encI32_length _) rfl
  have hlen2 : (p + 4) + (str.length + 1) ≤ data.length := by
    have h := length_ge_of_drop_eq hd4 (by simp)
    simp at h
    omega
  have hsl : pySlice data ((p + 4 : Nat) : Int)
      (((p + 4 : Nat) : Int) + ((str.length + 1 : Nat) : Int)) = str ++ [0] := by
    rw [pySlice_nat data (p + 4) (str.length + 1) hlen2,
      take_of_drop_eq hd4 (by simp)]
  have hdec : decodeWith .ascii (str ++ [0]) = some (str ++ [0]) := by
    simp only [decodeWith, asciiDecode]
    rw [if_pos]
    intro b hb
    rcases List.mem_append.mp hb with h1 | h1
    · exact ha b h1
    · simp at h1
      omega
  unfold read_string
  rw [hri]
  dsimp only
  have hneg : ¬(((str.length + 1 : Nat) : Int) < 0) := by omega
  rw [if_neg hneg, if_neg hneg, Int.toNat_natCast, hsl]
  rw [if_pos (by simp)]
  rw [hdec]
  dsimp only
  rw [if_pos (List.getLast?_concat str), List.dropLast_concat]
  have hcur : ((p + 4 : Nat) : Int) + ((str.length + 1 : Nat) : Int)
      = ((p + 5 + str.length : Nat) : Int) := by push_cast; ring
  rw [hcur]

lemma find_int_at {data rest : List Nat} {p : Nat}
    (hd : data.drop p = encU32 40 ++ rest) :
    find_int ⟨data, (p : Int)⟩ 40 = (p : Int) := by
  unfold find_int
  have hpat : encI32 40 = encU32 40 := rfl
  have hstart : pyStart data.length ((p : Nat) : Int) = p := by
    unfold pyStart
    rw [if_neg (by omega), Int.toNat_natCast]
  rw [hpat, hstart]
  unfold findAux
  rw [if_pos]
  rw [hd]
  exact List.isPrefixOf_iff_prefix.mpr ⟨rest, rfl⟩

/-- Modelled from the spec: the test buffer builder for the general layout
(§4.3, §8): magic, `file_version` (≠ -8), `license_version`, `engine_version`,
a nonzero `cook_version`, 4 bytes of padding, `asset_type`, the anchor literal
40, `data_offset`, the `path` string, 12 bytes of unrelated fields, a zero
probe word plus the 4-byte layout-dependent field that follows it, and the
`asset_guid` string. -/
def buildGeneral (fv : Int) (lic ue cook atype doff : Nat)
    (path guid : List Nat) : List Nat :=
  encU32 0x9E2A83C1 ++ (encI32 fv ++ (encU32 lic ++ (encU32 ue ++ (encU32 cook ++
    (encU32 0 ++ (encU32 atype ++ (encU32 40 ++ (encU32 doff ++ (encStrA path ++
    (List.replicate 12 0 ++ (encU32 0 ++ (encU32 0 ++ encStrA guid))))))))))))

/-- Modelled from the spec: the test buffer builder for the legacy layout
(`file_version == -8`, §4.3, §8): as the general layout, but after the 12
skipped bytes the `asset_guid` string follows directly (its nonzero length
prefix is what the probe read sees and rewinds over). -/
def buildLegacy (lic ue cook atype doff : Nat)
    (path guid : List Nat) : List Nat :=
  encU32 0x9E2A83C1 ++ (encI32 (-8) ++ (encU32 lic ++ (encU32 ue ++ (encU32 cook ++
    (encU32 0 ++ (encU32 atype ++ (encU32 40 ++ (encU32 doff ++ (encStrA path ++
    (List.replicate 12 0 ++ encStrA guid))))))))))

lemma parse_meta_buildGeneral {fv : Int} {lic ue cook atype doff : Nat}
    {path guid : List Nat}
    (hfv1 : -(2 : Int) ^ 31 ≤ fv) (hfv2 : fv < 2 ^ 31)
    (hlic : lic < 2 ^ 32) (hue : ue < 2 ^ 32)
    (hcook : cook < 2 ^ 32) (hcook0 : cook ≠ 0)
    (hatype : atype < 2 ^ 32) (hdoff : doff < 2 ^ 32)
    (hpath : ∀ b ∈ path, b < 128) (hplen : path.length + 1 < 2 ^ 31)
    (hguid : ∀ b ∈ guid, b < 128) (hglen : guid.length + 1 < 2 ^ 31) :
    parse_meta (buildGeneral fv lic ue cook atype doff path guid) =
      .ok ⟨fv, lic, ue, cook, atype, doff, path, guid⟩ := by
  have main : ∀ B : List Nat, B = buildGeneral fv lic ue cook atype doff path guid →
      parse_meta B = .ok ⟨fv, lic, ue, cook, atype, doff, path, guid⟩ := by
    intro B hB
    have d0 : B.drop 0 = encU32 0x9E2A83C1 ++ (encI32 fv ++ (encU32 lic ++ (encU32 ue ++
        (encU32 cook ++ (encU32 0 ++ (encU32 atype ++ (encU32 40 ++ (encU32 doff ++
        (encStrA path ++ (List.replicate 12 0 ++ (encU32 0 ++
        (encU32 0 ++ encStrA guid)))))))))))) := by
      rw [List.drop_zero, hB]
      rfl
    have d4 := drop_chain d0 (encU32_length _) (show 0 + 4 = 4 from rfl)
    have d8 := drop_chain d4 (encI32_length _) (show 4 + 4 = 8 from rfl)
    have d12 := drop_chain d8 (encU32_length _) (show 8 + 4 = 12 from rfl)
    have d16 := drop_chain d12 (encU32_length _) (show 12 + 4 = 16 from rfl)
    have d20 := drop_chain d16 (encU32_length _) (show 16 + 4 = 20 from rfl)
    have d24 := drop_chain d20 (encU32_length _) (show 20 + 4 = 24 from rfl)
    have d28 := drop_chain d24 (encU32_length _) (show 24 + 4 = 28 from rfl)
    have d32 := drop_chain d28 (encU32_length _) (show 28 + 4 = 32 from rfl)
    have d36 := drop_chain d32 (encU32_length _) (show 32 + 4 = 36 from rfl)
    have d41 := drop_chain d36 (encStrA_length path)
      (show 36 + (path.length + 5) = 41 + path.length from by omega)
    have d53 := drop_chain d41 (List.length_replicate 12 0)
      (show 41 + path.length + 12 = 53 + path.length from by omega)
    have d57 := drop_chain d53 (encU32_length _)
      (show 53 + path.length + 4 = 57 + path.length from by omega)
    have d61 := drop_chain d57 (encU32_length _)
      (show 57 + path.length + 4 = 61 + path.length from by omega)
    rw [← List.append_nil (encStrA guid)] at d61
    have d53i : B.drop (53 + path.length) = encI32 ((0 : Nat) : Int) ++
        (encU32 0 ++ encStrA guid) := by
      rw [d53, encI32_ofNat (by norm_num)]
    have e_val : validate ⟨B, (0 : Int)⟩ = .ok ⟨B, (0 : Int)⟩ := by
      unfold validate
      rw [read_uint_at (q := (0 : Int)) (p := 0) (by norm_num) (by norm_num) d0]
      dsimp only
      rw [if_neg (by norm_num)]
      rfl
    have e1 : read_int (skip ⟨B, (0 : Int)⟩ 4) = .ok (fv, ⟨B, ((8 : Nat) : Int)⟩) := by
      exact read_int_at (by norm_num) hfv1 hfv2 d4
    have e2 : read_uint ⟨B, ((8 : Nat) : Int)⟩ = .ok (lic, ⟨B, ((12 : Nat) : Int)⟩) :=
      read_uint_at rfl hlic d8
    have e3 : read_uint ⟨B, ((12 : Nat) : Int)⟩ = .ok (ue, ⟨B, ((16 : Nat) : Int)⟩) :=
      read_uint_at rfl hue d12
    have e4 : cookStage fv ⟨B, ((16 : Nat) : Int)⟩ = .ok (cook, ⟨B, ((20 : Nat) : Int)⟩) := by
      unfold cookStage
      rw [read_uint_at rfl hcook d16]
      dsimp only
      rw [if_neg (by simp [hcook0])]
    have e5 : read_uint (skip ⟨B, ((20 : Nat) : Int)⟩ 4) =
        .ok (atype, ⟨B, ((28 : Nat) : Int)⟩) := by
      exact read_uint_at (by norm_num) hatype d24
    have e6 : read_uint (anchorStage ⟨B, ((28 : Nat) : Int)⟩) =
        .ok (doff, ⟨B, ((36 : Nat) : Int)⟩) := by
      have ha : anchorStage ⟨B, ((28 : Nat) : Int)⟩ = ⟨B, ((32 : Nat) : Int)⟩ := by
        unfold anchorStage
        rw [find_int_at d28]
        rfl
      rw [ha]
      exact read_uint_at rfl hdoff d32
    have e7 : read_string ⟨B, ((36 : Nat) : Int)⟩ =
        .ok (path, ⟨B, ((41 + path.length : Nat) : Int)⟩) := by
      exact read_string_at_ascii rfl hpath hplen d36
    have e8 : probeStage (skip ⟨B, ((41 + path.length : Nat) : Int)⟩ 12) =
        .ok ⟨B, ((61 + path.length : Nat) : Int)⟩ := by
      show probeStage ⟨B, ((41 + path.length : Nat) : Int) + 12⟩ = _
      unfold probeStage
      rw [read_int_at (q := ((41 + path.length : Nat) : Int) + 12)
        (p := 53 + path.length) (by push_cast; ring) (by norm_num)
        (by norm_num) d53i]
      dsimp only
      rw [if_pos (by norm_num)]
      have hc : ((53 + path.length + 4 : Nat) : Int) + 4 =
          ((61 + path.length : Nat) : Int) := by push_cast; ring
      show Except.ok (⟨B, ((53 + path.length + 4 : Nat) : Int) + 4⟩ : RState) = _
      rw [hc]
    have e9 : read_string ⟨B, ((61 + path.length : Nat) : Int)⟩ =
        .ok (guid, ⟨B, ((61 + path.length + 5 + guid.length : Nat) : Int)⟩) := by
      exact read_string_at_ascii rfl hguid hglen d61
    have eg : get_asset_meta ⟨B, (0 : Int)⟩ =
        .ok (⟨fv, lic, ue, cook, atype, doff, path, guid⟩, ⟨B, (0 : Int)⟩) := by
      unfold get_asset_meta
      rw [e1]; dsimp only
      rw [e2]; dsimp only
      rw [e3]; dsimp only
      rw [e4]; dsimp only
      rw [e5]; dsimp only
      rw [e6]; dsimp only
      rw [e7]; dsimp only
      rw [e8]; dsimp only
      rw [e9]; dsimp only
      rfl
    unfold parse_meta
    rw [e_val]
    dsimp only
    rw [eg]
  exact main _ rfl

lemma parse_meta_buildLegacy {lic ue cook atype doff : Nat}
    {path guid : List Nat}
    (hlic : lic < 2 ^ 32) (hue : ue < 2 ^ 32) (hcook : cook < 2 ^ 32)
    (hatype : atype < 2 ^ 32) (hdoff : doff < 2 ^ 32)
    (hpath : ∀ b ∈ path, b < 128) (hplen : path.length + 1 < 2 ^ 31)
    (hguid : ∀ b ∈ guid, b < 128) (hglen : guid.length + 1 < 2 ^ 31) :
    parse_meta (buildLegacy lic ue cook atype doff path guid) =
      .ok ⟨-8, lic, ue, cook, atype, doff, path, guid⟩ := by
  have main : ∀ B : List Nat, B = buildLegacy lic ue cook atype doff path guid →
      parse_meta B = .ok ⟨-8, lic, ue, cook, atype, doff, path, guid⟩ := by
    intro B hB
    have d0 : B.drop 0 = encU32 0x9E2A83C1 ++ (encI32 (-8) ++ (encU32 lic ++ (encU32 ue ++
        (encU32 cook ++ (encU32 0 ++ (encU32 atype ++ (encU32 40 ++ (encU32 doff ++
        (encStrA path ++ (List.replicate 12 0 ++ encStrA guid)))))))))) := by
      rw [List.drop_zero, hB]
      rfl
    have d4 := drop_chain d0 (encU32_length _) (show 0 + 4 = 4 from rfl)
    have d8 := drop_chain d4 (encI32_length _) (show 4 + 4 = 8 from rfl)
    have d12 := drop_chain d8 (encU32_length _) (show 8 + 4 = 12 from rfl)
    have d16 := drop_chain d12 (encU32_length _) (show 12 + 4 = 16 from rfl)
    have d20 := drop_chain d16 (encU32_length _) (show 16 + 4 = 20 from rfl)
    have d24 := drop_chain d20 (encU32_length _) (show 20 + 4 = 24 from rfl)
    have d28 := drop_chain d24 (encU32_length _) (show 24 + 4 = 28 from rfl)
    have d32 := drop_chain d28 (encU32_length _) (show 28 + 4 = 32 from rfl)
    have d36 := drop_chain d32 (encU32_length _) (show 32 + 4 = 36 from rfl)
    have d41 := drop_chain d36 (encStrA_length path)
      (show 36 + (path.length + 5) = 41 + path.length from by omega)
    have d53 := drop_chain d41 (List.length_replicate 12 0)
      (show 41 + path.length + 12 = 53 + path.length from by omega)
    have d53e : B.drop (53 + path.length) = encU32 (guid.length + 1) ++ (guid ++ [0]) := by
      rw [d53]
      rfl
    have d53i : B.drop (53 + path.length) =
        encI32 ((guid.length + 1 : Nat) : Int) ++ (guid ++ [0]) := by
      rw [d53e, encI32_ofNat (by omega)]
    rw [← List.append_nil (encStrA guid)] at d53
    have e_val : validate ⟨B, (0 : Int)⟩ = .ok ⟨B, (0 : Int)⟩ := by
      unfold validate
      rw [read_uint_at (q := (0 : Int)) (p := 0) (by norm_num) (by norm_num) d0]
      dsimp only
      rw [if_neg (by norm_num)]
      rfl
    have e1 : read_int (skip ⟨B, (0 : Int)⟩ 4) = .ok (-8, ⟨B, ((8 : Nat) : Int)⟩) := by
      exact read_int_at (by norm_num) (by norm_num) (by norm_num) d4
    have e2 : read_uint ⟨B, ((8 : Nat) : Int)⟩ = .ok (lic, ⟨B, ((12 : Nat) : Int)⟩) :=
      read_uint_at rfl hlic d8
    have e3 : read_uint ⟨B, ((12 : Nat) : Int)⟩ = .ok (ue, ⟨B, ((16 : Nat) : Int)⟩) :=
      read_uint_at rfl hue d12
    have e4 : cookStage (-8) ⟨B, ((16 : Nat) : Int)⟩ =
        .ok (cook, ⟨B, ((20 : Nat) : Int)⟩) := by
      unfold cookStage
      rw [read_uint_at rfl hcook d16]
      dsimp only
      rw [if_neg (by simp)]
    have e5 : read_uint (skip ⟨B, ((20 : Nat) : Int)⟩ 4) =
        .ok (atype, ⟨B, ((28 : Nat) : Int)⟩) := by
      exact read_uint_at (by norm_num) hatype d24
    have e6 : read_uint (anchorStage ⟨B, ((28 : Nat) : Int)⟩) =
        .ok (doff, ⟨B, ((36 : Nat) : Int)⟩) := by
      have ha : anchorStage ⟨B, ((28 : Nat) : Int)⟩ = ⟨B, ((32 : Nat) : Int)⟩ := by
        unfold anchorStage
        rw [find_int_at d28]
        rfl
      rw [ha]
      exact read_uint_at rfl hdoff d32
    have e7 : read_string ⟨B, ((36 : Nat) : Int)⟩ =
        .ok (path, ⟨B, ((41 + path.length : Nat) : Int)⟩) := by
      exact read_string_at_ascii rfl hpath hplen d36
    have e8 : probeStage (skip ⟨B, ((41 + path.length : Nat) : Int)⟩ 12) =
        .ok ⟨B, ((53 + path.length : Nat) : Int)⟩ := by
      show probeStage ⟨B, ((41 + path.length : Nat) : Int) + 12⟩ = _
      unfold probeStage
      rw [read_int_at (q := ((41 + path.length : Nat) : Int) + 12)
        (p := 53 + path.length) (by push_cast; ring) (by omega)
        (by push_cast; omega) d53i]
      dsimp only
      rw [if_neg (by push_cast; omega)]
      have hc : ((53 + path.length + 4 : Nat) : Int) + (-4) =
          ((53 + path.length : Nat) : Int) := by push_cast; ring
      show Except.ok (⟨B, ((53 + path.length + 4 : Nat) : Int) + (-4)⟩ : RState) = _
      rw [hc]
    have e9 : read_string ⟨B, ((53 + path.length : Nat) : Int)⟩ =
        .ok (guid, ⟨B, ((53 + path.length + 5 + guid.length : Nat) : Int)⟩) := by
      exact read_string_at_ascii rfl hguid hglen d53
    have eg : get_asset_meta ⟨B, (0 : Int)⟩ =
        .ok (⟨-8, lic, ue, cook, atype, doff, path, guid⟩, ⟨B, (0 : Int)⟩) := by
      unfold get_asset_meta
      rw [e1]; dsimp only
      rw [e2]; dsimp only
      rw [e3]; dsimp only
      rw [e4]; dsimp only
      rw [e5]; dsimp only
      rw [e6]; dsimp only
      rw [e7]; dsimp only
      rw [e8]; dsimp only
      rw [e9]; dsimp only
      rfl
    unfold parse_meta
    rw [e_val]
    dsimp only
    rw [eg]
  exact main _ rfl

/-- Modelled from the spec: UTF-16 code units of a code-point sequence (§6,
§8 test builder): a BMP code point is one unit, a supplementary code point a
surrogate pair.  Only defined (injectively decodable) for valid non-surrogate
code points below 0x110000. -/
def utf16EncodeUnits (cps : List Nat) : List Nat :=
  cps.flatMap (fun c =>
    if c < 65536 then [c]
    else [55296 + (c - 65536) / 1024, 56320 + (c - 65536) % 1024])

/-- Modelled from the spec: little-endian bytes of a sequence of 16-bit code
units, as the `utf-16` codec writes them. -/
def unitsToBytesLE (us : List Nat) : List Nat :=
  us.flatMap (fun u => [u % 256, u / 256])

/-- Modelled from the spec: the test buffer builder's encoding of a
length-prefixed, NUL-terminated UTF-16 string (§6: negative length prefix
`-n` ⇒ `n` UTF-16 code units, `2 * n` bytes), written the way Python's
`utf-16` codec encodes — a little-endian BOM followed by little-endian code
units, the BOM counting as one of the `n` prefixed units. -/
def encodeUtf16Str (str : List Nat) : List Nat :=
  encI32 (-(((utf16EncodeUnits (str ++ [0])).length + 1 : Nat) : Int)) ++
    (255 :: 254 :: unitsToBytesLE (utf16EncodeUnits (str ++ [0])))

lemma utf16Pairs_unitsToBytesLE (us : List Nat) (h : ∀ u ∈ us, u < 65536) :
    utf16Pairs (unitsToBytesLE us) = some us := by
  induction us with
  | nil => rfl
  | cons u t ih =>
    have hu : u < 65536 := h u (by simp)
    have hrec := ih (fun v hv => h v (by simp [hv]))
    show utf16Pairs (u % 256 :: u / 256 :: unitsToBytesLE t) = some (u :: t)
    unfold utf16Pairs
    rw [hrec]
    have hx : u % 256 + 256 * (u / 256) = u := by omega
    show some ((u % 256 + 256 * (u / 256)) :: t) = some (u :: t)
    rw [hx]

lemma unitsToBytesLE_length (us : List Nat) :
    (unitsToBytesLE us).length = 2 * us.length := by
  induction us with
  | nil => rfl
  | cons u t ih =>
    show (unitsToBytesLE (u :: t)).length = 2 * (t.length + 1)
    have : unitsToBytesLE (u :: t) = u % 256 :: u / 256 :: unitsToBytesLE t := rfl
    rw [this]
    simp only [List.length_cons, ih]
    omega

lemma utf16EncodeUnits_lt (cps : List Nat) (h : ∀ c ∈ cps, c < 1114112) :
    ∀ u ∈ utf16EncodeUnits cps, u < 65536 := by
  induction cps with
  | nil => intro u hu; simp [utf16EncodeUnits] at hu
  | cons c t ih =>
    have hc : c < 1114112 := h c (by simp)
    have hrec := ih (fun v hv => h v (by simp [hv]))
    intro u hu
    have : utf16EncodeUnits (c :: t) =
        (if c < 65536 then [c]
          else [55296 + (c - 65536) / 1024, 56320 + (c - 65536) % 1024]) ++
        utf16EncodeUnits t := rfl
    rw [this] at hu
    rcases List.mem_append.mp hu with h1 | h1
    · split at h1 <;> simp at h1 <;> omega
    · exact hrec u h1

lemma unitsToCps_cons_pair (u v : Nat) (rest : List Nat)
    (hu : 55296 ≤ u ∧ u < 56320) (hv : 56320 ≤ v ∧ v < 57344) :
    unitsToCps (u :: v :: rest) =
      (unitsToCps rest).map (fun cs => (65536 + (u - 55296) * 1024 + (v - 56320)) :: cs) := by
  conv_lhs => unfold unitsToCps
  rw [if_pos hu]
  dsimp only
  rw [if_pos hv]
  cases unitsToCps rest <;> rfl

lemma unitsToCps_cons_one (u : Nat) (rest : List Nat)
    (hu : ¬(55296 ≤ u ∧ u < 57344)) :
    unitsToCps (u :: rest) = (unitsToCps rest).map (fun cs => u :: cs) := by
  conv_lhs => unfold unitsToCps
  rw [if_neg (by omega), if_neg (by omega)]
  cases unitsToCps rest <;> rfl

lemma unitsToCps_utf16EncodeUnits (cps : List Nat)
    (h : ∀ c ∈ cps, c < 1114112 ∧ ¬(55296 ≤ c ∧ c < 57344)) :
    unitsToCps (utf16EncodeUnits cps) = some cps := by
  induction cps with
  | nil => rfl
  | cons c t ih =>
    have hc := h c (by simp)
    have hrec := ih (fun v hv => h v (by simp [hv]))
    by_cases hbmp : c < 65536
    · have he : utf16EncodeUnits (c :: t) = c :: utf16EncodeUnits t := by
        show (if c < 65536 then [c]
          else [55296 + (c - 65536) / 1024, 56320 + (c - 65536) % 1024]) ++
          utf16EncodeUnits t = _
        rw [if_pos hbmp]
        rfl
      rw [he, unitsToCps_cons_one c _ hc.2, hrec]
      rfl
    · have he : utf16EncodeUnits (c :: t) = (55296 + (c - 65536) / 1024) ::
          (56320 + (c - 65536) % 1024) :: utf16EncodeUnits t := by
        show (if c < 65536 then [c]
          else [55296 + (c - 65536) / 1024, 56320 + (c - 65536) % 1024]) ++
          utf16EncodeUnits t = _
        rw [if_neg hbmp]
        rfl
      rw [he, unitsToCps_cons_pair _ _ _ (by omega) (by omega), hrec]
      have hval : 65536 + (55296 + (c - 65536) / 1024 - 55296) * 1024 +
          (56320 + (c - 65536) % 1024 - 56320) = c := by omega
      show some ((65536 + (55296 + (c - 65536) / 1024 - 55296) * 1024 +
          (56320 + (c - 65536) % 1024 - 56320)) :: t) = some (c :: t)
      rw [hval]

/-- A complete, well-formed string-table buffer (general header layout,
`asset_type = 1`, `data_offset = 68`, path "P", GUID "G", matching payload
GUID, empty table name) whose declared entry count is `-1`. -/
def sampleTable : List Nat :=
  encU32 0x9E2A83C1 ++ encI32 1 ++ encU32 2 ++ encU32 3 ++ encU32 5 ++ encU32 0 ++
  encU32 1 ++ encU32 40 ++ encU32 68 ++ encStrA [80] ++ List.replicate 12 0 ++
  encU32 0 ++ encU32 0 ++ encStrA [71] ++
  List.replicate 28 0 ++ encStrA [71] ++ List.replicate 12 0 ++ encStrA [] ++
  encI32 (-1)

/-- As `sampleTable` but with declared entry count `3` followed by only two
well-formed key/value pairs. -/
def sampleCount3 : List Nat :=
  encU32 0x9E2A83C1 ++ encI32 1 ++ encU32 2 ++ encU32 3 ++ encU32 5 ++ encU32 0 ++
  encU32 1 ++ encU32 40 ++ encU32 68 ++ encStrA [80] ++ List.replicate 12 0 ++
  encU32 0 ++ encU32 0 ++ encStrA [71] ++
  List.replicate 28 0 ++ encStrA [71] ++ List.replicate 12 0 ++ encStrA [] ++
  encI32 3 ++ encStrA [75] ++ encStrA [86] ++ encStrA [76] ++ encStrA [87]

/-- As `sampleTable` but the payload GUID is "H" while the header GUID is "G",
with one following entry. -/
def sampleMismatch : List Nat :=
  encU32 0x9E2A83C1 ++ encI32 1 ++ encU32 2 ++ encU32 3 ++ encU32 5 ++ encU32 0 ++
  encU32 1 ++ encU32 40 ++ encU32 68 ++ encStrA [80] ++ List.replicate 12 0 ++
  encU32 0 ++ encU32 0 ++ encStrA [71] ++
  List.replicate 28 0 ++ encStrA [72] ++ List.replicate 12 0 ++ encStrA [] ++
  encI32 1 ++ encStrA [75] ++ encStrA [86]

/-- A 29-byte buffer with a valid magic whose bytes from offset 28 onward
never contain the little-endian encoding of 40, so the anchor search of
`get_asset_meta` (which starts at cursor 28) finds no match — yet the header
resolver still succeeds, reading its fields from offset 3 onward. -/
def sampleNoAnchor : List Nat :=
  [0xC1, 0x83, 0x2A, 0x9E, 1, 1, 1, 1, 0, 0, 0, 0, 2, 0, 0, 0,
   1, 1, 1, 1, 3, 3, 3, 3, 1, 0, 0, 0, 0]

/-- C2 counterexample: a string-table buffer whose decoded entry count is the
negative value `-1`, on which `parse_string_table` nevertheless RETURNS
SUCCESSFULLY with zero entries — `for _ in range(count)` simply runs no
iterations, so no bounds check or string-decode failure ever fires. -/
theorem claim_C2_counterexample :
    tableHeader sampleTable = .ok (-1, ⟨sampleTable, 123⟩) ∧
    parse_string_table sampleTable = .ok [] :=
  ⟨rfl, rfl⟩

/-- C2 (amended): for every buffer whose decoded string-table entry count
field is negative, `parse_string_table` does not fail on the count: the entry
loop runs zero times (`range` of a negative count is empty) and the parse
returns successfully with an empty entry list. -/
theorem claim_C2_negative_count_empty (data : List Nat) (c : Int) (s : RState)
    (h : tableHeader data = .ok (c, s)) (hneg : c < 0) :
    parse_string_table data = .ok [] := by
  unfold parse_string_table
  rw [h]
  dsimp only
  have h0 : c.toNat = 0 := Int.toNat_eq_zero.mpr (by omega)
  rw [h0]
  rfl

/-- C2 witness: the amended statement applied to the concrete negative-count
buffer. -/
theorem claim_C2_witness : parse_string_table sampleTable = .ok [] :=
  claim_C2_negative_count_empty sampleTable (-1) ⟨sampleTable, 123⟩ (by rfl) (by norm_num)

/-- C4: whenever the header resolves (with `asset_type = 1`) and the string
read back at `data_offset + 28` differs from `Meta.asset_guid`,
`parse_string_table` fails with the GUID-mismatch error ("Asset code
mismatch") — the check sits before the entry loop, so no entries are ever
decoded and none are returned. -/
theorem claim_C4_guid_mismatch (data : List Nat) (sv : RState) (meta : Meta)
    (s1 : RState) (g : List Nat) (s2 : RState)
    (hval : validate ⟨data, 0⟩ = .ok sv)
    (hmeta : get_asset_meta sv = .ok (meta, s1))
    (htype : meta.asset_type = 1)
    (hguid : read_string ⟨data, (meta.data_offset : Int) + 28⟩ = .ok (g, s2))
    (hne : g ≠ meta.asset_guid) :
    parse_string_table data = .error .assetCodeMismatch := by
  unfold parse_string_table tableHeader
  rw [hval]
  dsimp only
  rw [hmeta]
  dsimp only
  rw [if_neg (by simp [htype])]
  have hs1 : s1 = ⟨sv.data, 0⟩ := get_asset_meta_state hmeta
  have hsv : sv = ⟨data, 0⟩ := validate_state hval
  have hst : skip (reset s1 ((meta.data_offset : Nat) : Int)) 28 =
      ⟨data, (meta.data_offset : Int) + 28⟩ := by
    rw [hs1, hsv]
    rfl
  rw [hst, hguid]
  dsimp only
  rw [if_pos hne]

/-- C4 witness: the concrete buffer whose payload GUID "H" differs from the
header GUID "G". -/
theorem claim_C4_witness :
    parse_string_table sampleMismatch = .error .assetCodeMismatch :=
  claim_C4_guid_mismatch sampleMismatch ⟨sampleMismatch, 0⟩
    ⟨1, 2, 3, 5, 1, 68, [80], [71]⟩ ⟨sampleMismatch, 0⟩ [72] ⟨sampleMismatch, 102⟩
    rfl rfl rfl rfl (by decide)

/-- C5 counterexample: a buffer on which the anchor search for the 32-bit
literal 40 (from cursor 28, where `get_asset_meta` performs it) finds no
match, yet `parse_meta` does NOT fail — it resets the cursor to `-1 + 4 = 3`
and successfully extracts (garbage) fields from offset 3. -/
theorem claim_C5_counterexample :
    find_int ⟨sampleNoAnchor, 28⟩ 40 = -1 ∧
    parse_meta sampleNoAnchor =
      .ok ⟨16843009, 0, 2, 16843009, 1, 16843166, [], []⟩ :=
  ⟨rfl, rfl⟩

/-- C5 (amended): when `find_int` finds no match it returns the sentinel
`-1`, and the resolver's anchor step silently resets the cursor to
`-1 + 4 = 3` and proceeds with field extraction from there instead of
failing. -/
theorem claim_C5_no_anchor_proceeds (s : RState) (h : find_int s 40 = -1) :
    anchorStage s = ⟨s.data, 3⟩ := by
  unfold anchorStage
  rw [h]
  rfl

/-- C5 witness: the amended statement at a concrete reader state with no
anchor match. -/
theorem claim_C5_witness : anchorStage ⟨[], 0⟩ = ⟨[], 3⟩ :=
  claim_C5_no_anchor_proceeds ⟨[], 0⟩ rfl

/-- C10: whenever the 4-byte length prefix read by `read_string` decodes to
exactly zero, the zero-byte payload decodes to the empty string, which cannot
end with a NUL terminator, so `read_string` always fails with the
"String not null terminated" error even though the read itself is in
bounds. -/
theorem claim_C10_zero_prefix_fails (s : RState) (s1 : RState)
    (h : read_int s = .ok (0, s1)) :
    read_string s = .error .stringNotTerminated := by
  unfold read_string
  rw [h]
  dsimp only
  have hc0 : ¬((0 : Int) < 0) := by norm_num
  simp only [if_neg hc0, Int.toNat_zero, Nat.cast_zero, add_zero]
  have hsl : pySlice s1.data s1.cursor s1.cursor = [] := by
    unfold pySlice
    apply List.drop_eq_nil_of_le
    rw [List.length_take]
    exact min_le_left _ _
  rw [hsl]
  simp only [List.length_nil]
  rw [if_pos trivial, show decodeWith PyEncoding.ascii [] = some [] from rfl]
  dsimp only
  rw [if_neg (by simp)]

/-- C10 witness: the all-zero 4-byte buffer. -/
theorem claim_C10_witness :
    read_string ⟨[0, 0, 0, 0], 0⟩ = .error .stringNotTerminated :=
  claim_C10_zero_prefix_fails ⟨[0, 0, 0, 0], 0⟩ ⟨[0, 0, 0, 0], 4⟩ rfl

/-- C6: for a buffer of at least 4 bytes, `validate` is fully determined by
the first 4 bytes read as an unsigned little-endian 32-bit value: it fails
with the not-a-container error when that value differs from `0x9E2A83C1`
(reading nothing further), and otherwise succeeds leaving the cursor reset to
offset 0. -/
theorem claim_C6_magic_check (data : List Nat) (h4 : 4 ≤ data.length) :
    validate ⟨data, 0⟩ = (if leU32 (data.take 4) = 0x9E2A83C1 then .ok ⟨data, 0⟩
      else .error .notAContainer) := by
  have hsl : pySlice data (0 : Int) ((0 : Int) + 4) = data.take 4 := by
    show pySlice data ((0 : Nat) : Int) (((0 : Nat) : Int) + ((4 : Nat) : Int)) =
      data.take 4
    rw [pySlice_nat data 0 4 (by omega), List.drop_zero]
  unfold validate read_uint
  rw [hsl, if_pos (by rw [List.length_take]; omega)]
  dsimp only
  by_cases hm : leU32 (data.take 4) = 0x9E2A83C1
  · rw [if_neg (by simp [hm]), if_pos hm]
    rfl
  · rw [if_pos hm, if_neg hm]

/-- C6 witness: the magic-valid and magic-corrupted concrete buffers. -/
theorem claim_C6_witness :
    validate ⟨[0xC1, 0x83, 0x2A, 0x9E, 7], 0⟩ = .ok ⟨[0xC1, 0x83, 0x2A, 0x9E, 7], 0⟩ ∧
    validate ⟨[0xC2, 0x83, 0x2A, 0x9E], 0⟩ = .error .notAContainer := by
  constructor
  · rw [claim_C6_magic_check [0xC1, 0x83, 0x2A, 0x9E, 7] (by norm_num)]
    rfl
  · rw [claim_C6_magic_check [0xC2, 0x83, 0x2A, 0x9E] (by norm_num)]
    rfl

/-- C7: in the header resolver, the `cook_version` step rewinds the cursor 4
bytes (back to where the read started) exactly when the value read was zero
and `file_version` is not `-8`, and otherwise leaves it advanced by 4; the
probe step that precedes the `asset_guid` read leaves the cursor 8 bytes past
where the probe read started exactly when the probe was zero, and rewinds to
where it started otherwise. -/
theorem claim_C7_rewind_conditions :
    (∀ (fv : Int) (s : RState) (c : Nat) (s1 : RState),
      read_uint s = .ok (c, s1) →
      ∃ s2, cookStage fv s = .ok (c, s2) ∧
        (s2.cursor = s.cursor ↔ (c = 0 ∧ fv ≠ -8)) ∧
        (s2.cursor = s.cursor + 4 ↔ ¬(c = 0 ∧ fv ≠ -8)))
    ∧ (∀ (s : RState) (v : Int) (s1 : RState),
      read_int s = .ok (v, s1) →
      ∃ s2, probeStage s = .ok s2 ∧
        (s2.cursor = s.cursor + 8 ↔ v = 0) ∧
        (s2.cursor = s.cursor ↔ v ≠ 0)) := by
  constructor
  · intro fv s c s1 h
    have hs1 : s1 = ⟨s.data, s.cursor + 4⟩ := read_uint_state h
    by_cases hc : c = 0 ∧ fv ≠ -8
    · refine ⟨skip s1 (-4), ?_, ?_, ?_⟩
      · unfold cookStage
        rw [h]
        dsimp only
        rw [if_pos hc]
      · exact iff_of_true (by rw [hs1]; show s.cursor + 4 + (-4) = s.cursor; omega) hc
      · exact iff_of_false
          (by rw [hs1]; show ¬(s.cursor + 4 + (-4) = s.cursor + 4); omega)
          (by simp [hc])
    · refine ⟨s1, ?_, ?_, ?_⟩
      · unfold cookStage
        rw [h]
        dsimp only
        rw [if_neg hc]
      · exact iff_of_false (by rw [hs1]; show ¬(s.cursor + 4 = s.cursor); omega) hc
      · exact iff_of_true (by rw [hs1]) hc
  · intro s v s1 h
    have hs1 : s1 = ⟨s.data, s.cursor + 4⟩ := read_int_state h
    by_cases hv : v = 0
    · refine ⟨skip s1 4, ?_, ?_, ?_⟩
      · unfold probeStage
        rw [h]
        dsimp only
        rw [if_pos hv]
      · exact iff_of_true (by rw [hs1]; show s.cursor + 4 + 4 = s.cursor + 8; omega) hv
      · exact iff_of_false
          (by rw [hs1]; show ¬(s.cursor + 4 + 4 = s.cursor); omega)
          (by simp [hv])
    · refine ⟨skip s1 (-4), ?_, ?_, ?_⟩
      · unfold probeStage
        rw [h]
        dsimp only
        rw [if_neg hv]
      · exact iff_of_false
          (by rw [hs1]; show ¬(s.cursor + 4 + (-4) = s.cursor + 8); omega)
          (by simp [hv])
      · exact iff_of_true (by rw [hs1]; show s.cursor + 4 + (-4) = s.cursor; omega) hv

/-- C7 witness: both stages at concrete states (cook read of 0 with
`file_version = 5`; probe read of 1). -/
theorem claim_C7_witness :
    (∃ s2, cookStage 5 ⟨[0, 0, 0, 0], 0⟩ = .ok (0, s2) ∧
      (s2.cursor = 0 ↔ ((0 : Nat) = 0 ∧ (5 : Int) ≠ -8)) ∧
      (s2.cursor = 0 + 4 ↔ ¬((0 : Nat) = 0 ∧ (5 : Int) ≠ -8))) ∧
    (∃ s2, probeStage ⟨[1, 0, 0, 0], 0⟩ = .ok s2 ∧
      (s2.cursor = 0 + 8 ↔ (1 : Int) = 0) ∧
      (s2.cursor = 0 ↔ (1 : Int) ≠ 0)) :=
  ⟨claim_C7_rewind_conditions.1 5 ⟨[0, 0, 0, 0], 0⟩ 0 ⟨[0, 0, 0, 0], 4⟩ (by rfl),
   claim_C7_rewind_conditions.2 ⟨[1, 0, 0, 0], 0⟩ 1 ⟨[1, 0, 0, 0], 4⟩ (by rfl)⟩

lemma readPairs_succ (s : RState) (n : Nat) :
    readPairs s (n + 1) =
      match read_string s with
      | .error e => .error e
      | .ok (key, s1) =>
        match read_string s1 with
        | .error e => .error e
        | .ok (value, s2) =>
          match readPairs s2 n with
          | .error e => .error e
          | .ok (rest, s3) => .ok ((key, value) :: rest, s3) := by
  conv_lhs => unfold readPairs

/-- C8: reads past the end of the buffer fail immediately — with fewer than 4
bytes remaining at a (non-negative) cursor, `read_int` and `read_uint` fail
with the `struct.error` underrun instead of returning a value; consequently a
string-table parse that reaches its entry loop with declared count 3 but runs
out of well-formed data after 2 pairs propagates the failure of the third
read, returning that error and never a partial 2-entry list. -/
theorem claim_C8_underrun :
    (∀ (data : List Nat) (p : Nat), data.length < p + 4 →
      read_int ⟨data, (p : Int)⟩ = .error .structError ∧
      read_uint ⟨data, (p : Int)⟩ = .error .structError)
    ∧ (∀ (data : List Nat) (s s1 s2 s3 s4 : RState) (k1 v1 k2 v2 : List Nat)
        (e : PErr),
      tableHeader data = .ok (3, s) →
      read_string s = .ok (k1, s1) → read_string s1 = .ok (v1, s2) →
      read_string s2 = .ok (k2, s3) → read_string s3 = .ok (v2, s4) →
      read_string s4 = .error e →
      parse_string_table data = .error e) := by
  constructor
  · intro data p h
    have hc : (p : Int) + 4 = ((p + 4 : Nat) : Int) := by push_cast; ring
    have hlen : (pySlice data (p : Int) ((p : Int) + 4)).length ≠ 4 := by
      rw [hc]
      unfold pySlice pyIndex
      rw [if_neg (by omega), if_neg (by omega)]
      simp only [Int.toNat_natCast, List.length_drop, List.length_take]
      omega
    constructor
    · unfold read_int
      rw [if_neg hlen]
    · unfold read_uint
      rw [if_neg hlen]
  · intro data s s1 s2 s3 s4 k1 v1 k2 v2 e hth hk1 hv1 hk2 hv2 herr
    have h3 : readPairs s ((3 : Int).toNat) = .error e := by
      show readPairs s (2 + 1) = .error e
      rw [readPairs_succ, hk1]
      dsimp only
      rw [hv1]
      dsimp only
      have h2 : readPairs s2 (1 + 1) = .error e := by
        rw [readPairs_succ, hk2]
        dsimp only
        rw [hv2]
        dsimp only
        have h1 : readPairs s4 (0 + 1) = .error e := by
          rw [readPairs_succ, herr]
        rw [h1]
      rw [h2]
    unfold parse_string_table
    rw [hth]
    dsimp only
    rw [h3]

/-- C8 witness: the underrun case on a 3-byte buffer and the count-3 buffer
with only two pairs (the third key read underruns). -/
theorem claim_C8_witness :
    (read_int ⟨[1, 2, 3], ((0 : Nat) : Int)⟩ = .error .structError ∧
     read_uint ⟨[1, 2, 3], ((0 : Nat) : Int)⟩ = .error .structError) ∧
    parse_string_table sampleCount3 = .error .structError :=
  ⟨claim_C8_underrun.1 [1, 2, 3] 0 (by norm_num),
   claim_C8_underrun.2 sampleCount3 ⟨sampleCount3, 123⟩ ⟨sampleCount3, 129⟩
     ⟨sampleCount3, 135⟩ ⟨sampleCount3, 141⟩ ⟨sampleCount3, 147⟩
     [75] [86] [76] [87] .structError (by rfl) (by rfl) (by rfl) (by rfl)
     (by rfl) (by rfl)⟩

/-- C9: on success the header resolver returns a state whose cursor is reset
to offset 0, and no reader operation changes the underlying byte buffer: the
state returned by `read_uint`, `read_int`, `read_string`, `validate`,
`get_asset_meta`, `skip` and `reset` always carries the same `data` as the
input state (`find_int` returns only an offset and touches no state at
all). -/
theorem claim_C9_buffer_immutable :
    (∀ (s : RState) (v : Nat) (s' : RState),
      read_uint s = .ok (v, s') → s'.data = s.data)
    ∧ (∀ (s : RState) (v : Int) (s' : RState),
      read_int s = .ok (v, s') → s'.data = s.data)
    ∧ (∀ (s : RState) (v : List Nat) (s' : RState),
      read_string s = .ok (v, s') → s'.data = s.data)
    ∧ (∀ (s s' : RState), validate s = .ok s' → s'.data = s.data ∧ s'.cursor = 0)
    ∧ (∀ (s : RState) (n : Int), (skip s n).data = s.data)
    ∧ (∀ (s : RState) (p : Int), (reset s p).data = s.data)
    ∧ (∀ (s : RState) (m : Meta) (s' : RState),
      get_asset_meta s = .ok (m, s') → s'.data = s.data ∧ s'.cursor = 0) := by
  refine ⟨?_, ?_, ?_, ?_, ?_, ?_, ?_⟩
  · intro s v s' h
    rw [read_uint_state h]
  · intro s v s' h
    rw [read_int_state h]
  · intro s v s' h
    exact read_string_state h
  · intro s s' h
    rw [validate_state h]
    exact ⟨rfl, rfl⟩
  · intro s n
    rfl
  · intro s p
    rfl
  · intro s m s' h
    rw [get_asset_meta_state h]
    exact ⟨rfl, rfl⟩

/-- C9 witness: the data-preservation and cursor-reset facts at concrete
states, including a full successful header resolve. -/
theorem claim_C9_witness :
    ((⟨[1, 0, 0, 0], (4 : Int)⟩ : RState).data = (⟨[1, 0, 0, 0], (0 : Int)⟩ : RState).data) ∧
    ((⟨[1, 0, 0, 0, 0], (5 : Int)⟩ : RState).data = (⟨[1, 0, 0, 0, 0], (0 : Int)⟩ : RState).data) ∧
    ((⟨sampleTable, (0 : Int)⟩ : RState).data = (⟨sampleTable, (0 : Int)⟩ : RState).data ∧
      (⟨sampleTable, (0 : Int)⟩ : RState).cursor = 0) :=
  ⟨claim_C9_buffer_immutable.1 ⟨[1, 0, 0, 0], 0⟩ 1 ⟨[1, 0, 0, 0], 4⟩ (by rfl),
   claim_C9_buffer_immutable.2.2.1 ⟨[1, 0, 0, 0, 0], 0⟩ [] ⟨[1, 0, 0, 0, 0], 5⟩ (by rfl),
   claim_C9_buffer_immutable.2.2.2.2.2.2 ⟨sampleTable, 0⟩
     ⟨1, 2, 3, 5, 1, 68, [80], [71]⟩ ⟨sampleTable, 0⟩ (by rfl)⟩

lemma read_string_encodeUtf16 {str : List Nat}
    (hv : ∀ c ∈ str, c < 1114112 ∧ ¬(55296 ≤ c ∧ c < 57344))
    (hlen : (utf16EncodeUnits (str ++ [0])).length + 1 ≤ 2 ^ 31) :
    read_string ⟨encodeUtf16Str str, 0⟩ = .ok (str, ⟨encodeUtf16Str str,
      ((4 + ((utf16EncodeUnits (str ++ [0])).length + 1) * 2 : Nat) : Int)⟩) := by
  have hv0 : ∀ c ∈ str ++ [0], c < 1114112 ∧ ¬(55296 ≤ c ∧ c < 57344) := by
    intro c hcm
    rcases List.mem_append.mp hcm with h1 | h1
    · exact hv c h1
    · simp at h1
      subst h1
      norm_num
  have main : ∀ B : List Nat, B = encodeUtf16Str str →
      read_string ⟨B, 0⟩ = .ok (str, ⟨B,
        ((4 + ((utf16EncodeUnits (str ++ [0])).length + 1) * 2 : Nat) : Int)⟩) := by
    intro B hB
    have d0 : B.drop 0 = encI32 (-((((utf16EncodeUnits (str ++ [0])).length + 1 : Nat)) : Int)) ++
        (255 :: 254 :: unitsToBytesLE (utf16EncodeUnits (str ++ [0]))) := by
      rw [List.drop_zero, hB]
      rfl
    have d4 : B.drop 4 = 255 :: 254 :: unitsToBytesLE (utf16EncodeUnits (str ++ [0])) :=
      drop_chain d0 (encI32_length _) (show 0 + 4 = 4 from rfl)
    have hBlen : B.length = 4 + (2 + 2 * (utf16EncodeUnits (str ++ [0])).length) := by
      rw [hB]
      show (encI32 _ ++ (255 :: 254 :: unitsToBytesLE (utf16EncodeUnits (str ++ [0])))).length = _
      rw [List.length_append, encI32_length]
      simp [unitsToBytesLE_length]
      omega
    have hri : read_int ⟨B, (0 : Int)⟩ =
        .ok (-((((utf16EncodeUnits (str ++ [0])).length + 1 : Nat)) : Int), ⟨B, ((4 : Nat) : Int)⟩) := by
      exact read_int_at (q := (0 : Int)) (p := 0) (by norm_num) (by push_cast; omega)
        (by push_cast; omega) d0
    have hsl : pySlice B ((4 : Nat) : Int) (((4 : Nat) : Int) +
        ((((utf16EncodeUnits (str ++ [0])).length + 1) * 2 : Nat) : Int)) =
        255 :: 254 :: unitsToBytesLE (utf16EncodeUnits (str ++ [0])) := by
      rw [pySlice_nat B 4 (((utf16EncodeUnits (str ++ [0])).length + 1) * 2) (by omega)]
      rw [d4]
      have h2 : ((utf16EncodeUnits (str ++ [0])).length + 1) * 2 =
          (255 :: 254 :: unitsToBytesLE (utf16EncodeUnits (str ++ [0]))).length := by
        simp [unitsToBytesLE_length]
        omega
      rw [h2, List.take_length]
    have hdec : utf16Decode (255 :: 254 :: unitsToBytesLE (utf16EncodeUnits (str ++ [0]))) =
        some (str ++ [0]) := by
      have hp := utf16Pairs_unitsToBytesLE (utf16EncodeUnits (str ++ [0]))
        (utf16EncodeUnits_lt (str ++ [0]) (fun c hcm => (hv0 c hcm).1))
      have hu := unitsToCps_utf16EncodeUnits (str ++ [0]) hv0
      show (match utf16Pairs (unitsToBytesLE (utf16EncodeUnits (str ++ [0]))) with
        | none => none
        | some us => unitsToCps us) = some (str ++ [0])
      rw [hp]
      exact hu
    unfold read_string
    rw [hri]
    dsimp only
    have hneg : (-((((utf16EncodeUnits (str ++ [0])).length + 1 : Nat)) : Int)) < 0 := by
      push_cast
      omega
    rw [if_pos hneg, if_pos hneg, neg_neg, Int.toNat_natCast, hsl]
    rw [if_pos (by simp [unitsToBytesLE_length]; omega)]
    show (match decodeWith PyEncoding.utf16
        (255 :: 254 :: unitsToBytesLE (utf16EncodeUnits (str ++ [0]))) with
      | none => Except.error PErr.decodeError
      | some value =>
        if value.getLast? = some 0 then
          Except.ok (value.dropLast, (⟨B, ((4 : Nat) : Int) +
            ((((utf16EncodeUnits (str ++ [0])).length + 1) * 2 : Nat) : Int)⟩ : RState))
        else Except.error PErr.stringNotTerminated) = _
    show (match utf16Decode
        (255 :: 254 :: unitsToBytesLE (utf16EncodeUnits (str ++ [0]))) with
      | none => Except.error PErr.decodeError
      | some value =>
        if value.getLast? = some 0 then
          Except.ok (value.dropLast, (⟨B, ((4 : Nat) : Int) +
            ((((utf16EncodeUnits (str ++ [0])).length + 1) * 2 : Nat) : Int)⟩ : RState))
        else Except.error PErr.stringNotTerminated) = _
    rw [hdec]
    dsimp only
    rw [if_pos (List.getLast?_concat str), List.dropLast_concat]
    have hcur : ((4 : Nat) : Int) + ((((utf16EncodeUnits (str ++ [0])).length + 1) * 2 : Nat) : Int) =
        ((4 + ((utf16EncodeUnits (str ++ [0])).length + 1) * 2 : Nat) : Int) := by
      push_cast
      ring
    rw [hcur]
  exact main _ rfl

/-- C1: `parse_meta` round-trips both buffer-builder layouts — on every valid
minimal synthetic buffer built in the general layout (any `file_version`
other than the sentinel `-8`, nonzero `cook_version`) or the legacy layout
(`file_version = -8`), it succeeds and the returned `Meta` record's fields
(`file_version`, `license_version`, `ue_version` (the spec's
"engine_version"), `cook_version`, `asset_type`, `data_offset`, `path`,
`asset_guid`) equal exactly the values the buffer was built from. -/
theorem claim_C1_parse_meta_round_trip (fv : Int) (lic ue cook atype doff : Nat)
    (path guid : List Nat) :
    ((-(2 : Int) ^ 31 ≤ fv → fv < 2 ^ 31 → fv ≠ -8 →
      lic < 2 ^ 32 → ue < 2 ^ 32 → cook < 2 ^ 32 → cook ≠ 0 →
      atype < 2 ^ 32 → doff < 2 ^ 32 →
      (∀ b ∈ path, b < 128) → path.length + 1 < 2 ^ 31 →
      (∀ b ∈ guid, b < 128) → guid.length + 1 < 2 ^ 31 →
      parse_meta (buildGeneral fv lic ue cook atype doff path guid) =
        .ok ⟨fv, lic, ue, cook, atype, doff, path, guid⟩)
    ∧ (lic < 2 ^ 32 → ue < 2 ^ 32 → cook < 2 ^ 32 →
      atype < 2 ^ 32 → doff < 2 ^ 32 →
      (∀ b ∈ path, b < 128) → path.length + 1 < 2 ^ 31 →
      (∀ b ∈ guid, b < 128) → guid.length + 1 < 2 ^ 31 →
      parse_meta (buildLegacy lic ue cook atype doff path guid) =
        .ok ⟨-8, lic, ue, cook, atype, doff, path, guid⟩)) :=
  ⟨fun h1 h2 _ h4 h5 h6 h7 h8 h9 h10 h11 h12 h13 =>
    parse_meta_buildGeneral h1 h2 h4 h5 h6 h7 h8 h9 h10 h11 h12 h13,
   fun h1 h2 h3 h4 h5 h6 h7 h8 h9 =>
    parse_meta_buildLegacy h1 h2 h3 h4 h5 h6 h7 h8 h9⟩

/-- C1 witness: concrete instances of both layouts (the general one mirrors
the spec's end-to-end example shape: `file_version = 1`, `cook = 5`,
`asset_type = 1`, path "/G", GUID "ABC"). -/
theorem claim_C1_witness :
    parse_meta (buildGeneral 1 0 0 5 1 68 [47, 71] [65, 66, 67]) =
      .ok ⟨1, 0, 0, 5, 1, 68, [47, 71], [65, 66, 67]⟩ ∧
    parse_meta (buildLegacy 0 0 0 1 68 [47] [65]) =
      .ok ⟨-8, 0, 0, 0, 1, 68, [47], [65]⟩ :=
  ⟨(claim_C1_parse_meta_round_trip 1 0 0 5 1 68 [47, 71] [65, 66, 67]).1
      (by norm_num) (by norm_num) (by norm_num) (by norm_num) (by norm_num)
      (by norm_num) (by norm_num) (by norm_num) (by norm_num) (by decide)
      (by norm_num) (by decide) (by norm_num),
   (claim_C1_parse_meta_round_trip (-8) 0 0 0 1 68 [47] [65]).2
      (by norm_num) (by norm_num) (by norm_num) (by norm_num) (by norm_num)
      (by decide) (by norm_num) (by decide) (by norm_num)⟩

/-- C3: `read_string` round-trips both encodings — a text encoded as a
length-prefixed NUL-terminated `ascii` string decodes back to exactly the
original text with the terminator stripped, as does a text encoded as a
length-prefixed NUL-terminated UTF-16 string (negative prefix `-n` for `n`
code units, i.e. `2 * n` bytes, written as Python's `utf-16` codec writes
them); and on a buffer whose terminator byte is not NUL (`[2,0,0,0,65,66]`,
terminator 66), `read_string` fails with the "String not null terminated"
encoding error. -/
theorem claim_C3_read_string_round_trip :
    (∀ str : List Nat, (∀ b ∈ str, b < 128) → str.length + 1 < 2 ^ 31 →
      read_string ⟨encStrA str, 0⟩ =
        .ok (str, ⟨encStrA str, ((5 + str.length : Nat) : Int)⟩))
    ∧ (∀ str : List Nat,
      (∀ c ∈ str, c < 1114112 ∧ ¬(55296 ≤ c ∧ c < 57344)) →
      (utf16EncodeUnits (str ++ [0])).length + 1 ≤ 2 ^ 31 →
      read_string ⟨encodeUtf16Str str, 0⟩ = .ok (str, ⟨encodeUtf16Str str,
        ((4 + ((utf16EncodeUnits (str ++ [0])).length + 1) * 2 : Nat) : Int)⟩))
    ∧ read_string ⟨[2, 0, 0, 0, 65, 66], 0⟩ = .error .stringNotTerminated := by
  refine ⟨?_, ?_, ?_⟩
  · intro str ha hl
    exact read_string_at_ascii (q := (0 : Int)) (p := 0) (by norm_num) ha hl
      (show (encStrA str).drop 0 = encStrA str ++ [] by simp)
  · intro str hv hl
    exact read_string_encodeUtf16 hv hl
  · rfl

/-- C3 witness: ASCII "Hi" and a UTF-16 text containing a BMP code point and
a supplementary (surrogate-pair) code point round-trip through `read_string`;
hypotheses are discharged by computation. -/
theorem claim_C3_witness :
    read_string ⟨encStrA [72, 105], 0⟩ =
      .ok ([72, 105], ⟨encStrA [72, 105], ((5 + 2 : Nat) : Int)⟩) ∧
    read_string ⟨encodeUtf16Str [1090, 128512], 0⟩ =
      .ok ([1090, 128512], ⟨encodeUtf16Str [1090, 128512],
        ((4 + ((utf16EncodeUnits ([1090, 128512] ++ [0])).length + 1) * 2 : Nat) : Int)⟩) :=
  ⟨(claim_C3_read_string_round_trip.1 [72, 105] (by decide) (by norm_num)),
   (claim_C3_read_string_round_trip.2.1 [1090, 128512] (by decide) (by decide))⟩
